import Mathlib

open scoped List

/-!
A verification development for the retrieval-and-generation query pipeline of
the finance assistant.  Python strings are modelled as `List Char`, external
capabilities (embedding model, Ollama backend, market data, wall clock) as
explicit parameters, and every operation of the pipeline as a pure Lean
function translated from the corresponding Python source.
-/

/-! ## String primitives (Python string operations on `List Char`) -/

/-- Python `str.lower` restricted to the alphabets used by the sources:
ASCII `A`-`Z` and Cyrillic `А`-`Я`, `Ё`. -/
def toLowerRu (c : Char) : Char :=
  if 'A' ≤ c ∧ c ≤ 'Z' then Char.ofNat (c.toNat + 32)
  else if 0x410 ≤ c.toNat ∧ c.toNat ≤ 0x42F then Char.ofNat (c.toNat + 0x20)
  else if c.toNat = 0x401 then Char.ofNat 0x451
  else c

/-- Python regex `\w` (re.UNICODE): ASCII alphanumerics, underscore, and
(for the texts of this repository) the Cyrillic block U+0400-U+04FF. -/
def isWordChar (c : Char) : Bool :=
  c.isAlphanum || c == '_' || (decide (0x400 ≤ c.toNat) && decide (c.toNat ≤ 0x4FF))

/-- Python `needle in haystack` on strings: substring test. -/
def containsSub : List Char → List Char → Bool
  | [], p => p.isEmpty
  | c :: rest, p => p.isPrefixOf (c :: rest) || containsSub rest p

/-- Fuel-driven body of Python `str.replace(pat, '')`: a single left-to-right
scan deleting every non-overlapping occurrence of `p`; text produced by a
deletion is not rescanned.  `fuel ≥ length of the text` makes the fuel case
unreachable. -/
def replaceAllF (p : List Char) : ℕ → List Char → List Char
  | _, [] => []
  | 0, s => s
  | fuel + 1, c :: rest =>
    if !p.isEmpty && p.isPrefixOf (c :: rest) then
      replaceAllF p fuel (rest.drop (p.length - 1))
    else
      c :: replaceAllF p fuel rest

/-- Python `s.replace(p, '')`. -/
def replaceAll (p s : List Char) : List Char := replaceAllF p s.length s

/-- Python slice `s[:-n]`. -/
def pyDropLast (l : List Char) (n : ℕ) : List Char := l.take (l.length - n)

/-- Python `str.strip()`: drop whitespace from both ends. -/
def stripChars (s : List Char) : List Char :=
  ((s.dropWhile Char.isWhitespace).reverse.dropWhile Char.isWhitespace).reverse

/-- A regex `\b` boundary next to the matched word: text edge or a
non-word character. -/
def boundaryOk : Option Char → Bool
  | none => true
  | some c => !isWordChar c

/-- Scan for an occurrence of `w` that is `\b`-bounded on both sides;
`prev` is the character immediately before the current position. -/
def wordOccurAux (w : List Char) : Option Char → List Char → Bool
  | _, [] => false
  | prev, c :: rest =>
    (w.isPrefixOf (c :: rest) && boundaryOk prev &&
      boundaryOk ((c :: rest).drop w.length).head?) ||
    wordOccurAux w (some c) rest

/-- Does `s` contain a `\b`-bounded occurrence of the (nonempty) word `w`? -/
def hasWordBounded (s w : List Char) : Bool := wordOccurAux w none s

/-! ## SecurityChecker (src/ai_assistant/src/security_checker.py) -/

/-- `SecurityChecker.flags`: the recognized control tokens, in the
dictionary's insertion order. -/
def flagTokens : List (List Char) :=
  ["-notrigger", "-nocode", "-nodeep", "-simple"].map (·.toList)

/-- The loop of `SecurityChecker._extract_flags`: for each recognized flag,
if it occurs in the current text, record it and delete all its occurrences
(`clean_text.replace(flag, '').strip()`). -/
def extractGo : List (List Char) → List Char → List (List Char) →
    List Char × List (List Char)
  | [], t, fs => (t, fs)
  | f :: rest, t, fs =>
    if containsSub t f then extractGo rest (stripChars (replaceAll f t)) (fs ++ [f])
    else extractGo rest t fs

/-- `SecurityChecker._extract_flags`. -/
def extract_flags (text : List Char) : List Char × List (List Char) :=
  extractGo flagTokens text []

/-- Keyword alternatives of `SecurityChecker._code_regex` carrying `\b`
boundaries (`\bsql\b`, ..., `\bcreate table\b`). -/
def securityCodeWords : List (List Char) :=
  ["sql", "select", "insert", "update", "delete", "drop", "create table",
   "execute", "eval", "exec"].map (·.toList)

/-- Plain-substring alternatives of `SecurityChecker._code_regex`. -/
def securityCodePhrases : List (List Char) :=
  ["написать код", "сгенерируй sql", "запрос sql", "выполнить sql",
   "как выполнить sql"].map (·.toList)

/-- `SecurityChecker._code_regex.search` (the union pattern, IGNORECASE). -/
def codeRegexMatch (s : List Char) : Bool :=
  let t := s.map toLowerRu
  securityCodeWords.any (fun w => hasWordBounded t w) ||
  securityCodePhrases.any (fun w => containsSub t w)

/-- The part of `security_rules.json` consulted by `SecurityChecker.check`:
the keys of `dangerous_patterns` in iteration order, and the
`rejection_messages` mapping as an ordered association list. -/
structure SecRules where
  dangerousPatterns : List (List Char)
  rejectionMessages : List (List Char × List Char)

/-- Python `dict.get(key, dflt)` on an ordered association list. -/
def lookupMsgOr (m : List (List Char × List Char)) (key dflt : List Char) : List Char :=
  match m.find? (fun kv => kv.1 == key) with
  | some kv => kv.2
  | none => dflt

/-- Fixed reason returned when the `-notrigger` flag disables all checks. -/
def notriggerMsg : List Char := "🔓 Режим без триггеров активирован".toList

/-- Hard-coded default rejection message. -/
def defaultRejectMsg : List Char := "Запрос отклонен по политике безопасности.".toList

/-- Hard-coded rejection message for the compiled code/SQL pattern. -/
def codeRejectMsg : List Char :=
  "Извините, я не могу генерировать программный код или инструкции для выполнения SQL-запросов.".toList

/-- `any(code_word in pattern for code_word in ['код', 'sql', 'команду'])`. -/
def codeWordInPat (p : List Char) : Bool :=
  ["код", "sql", "команду"].any (fun w => containsSub p (w.toList))

/-- `SecurityChecker.check`: extract flags; `-notrigger` short-circuits to
allowed; otherwise the first dangerous pattern matching the lowercased clean
text rejects (a code-related pattern is skipped when `-nocode` is active);
otherwise the compiled code/SQL pattern rejects unless `-nocode` is active. -/
def check (rules : SecRules) (text : List Char) : Bool × List Char :=
  let ef := extract_flags text
  let clean := ef.1
  let flags := ef.2
  if flags.contains "-notrigger".toList then (true, notriggerMsg)
  else
    let textL := clean.map toLowerRu
    match rules.dangerousPatterns.find? (fun p =>
        containsSub textL p && !(flags.contains "-nocode".toList && codeWordInPat p)) with
    | some p =>
      (false, lookupMsgOr rules.rejectionMessages p
        (lookupMsgOr rules.rejectionMessages "default".toList defaultRejectMsg))
    | none =>
      if codeRegexMatch clean && !flags.contains "-nocode".toList then
        (false, lookupMsgOr rules.rejectionMessages "code".toList codeRejectMsg)
      else (true, [])

example : extract_flags "sql -notrigger".toList = ("sql".toList, ["-notrigger".toList]) := by decide
example : codeRegexMatch "Write SQL to drop the users table".toList = true := by decide
example : codeRegexMatch "что такое кредит".toList = false := by decide
example : (check ⟨[], []⟩ "Write SQL to drop the users table".toList) = (false, codeRejectMsg) := by decide
example : (check ⟨[], []⟩ "sql -notrigger".toList) = (true, notriggerMsg) := by decide

/-! ## LLMAdapter (src/ai_assistant/src/llm_adapter.py) -/

/-- One decoded line of the Ollama line-delimited stream: either a line that
fails JSON decoding (skipped) or a frame with optional `response` text and a
`done` marker. -/
inductive OllamaLine
  | malformed
  | frame (response : Option (List Char)) (done : Bool)
deriving DecidableEq

/-- Outcome of one network attempt of `LLMAdapter._stream_from_ollama`:
a 200 response with a body, a non-success status, `asyncio.TimeoutError`,
`aiohttp.ClientConnectorError`, or any other exception. -/
inductive AttemptOutcome
  | ok (lines : List OllamaLine)
  | badStatus
  | timeout
  | connError
  | otherError
deriving DecidableEq

/-- Terminal fragment `"Не удалось подключиться к языковой модели."`. -/
def connectMsg : List Char := "Не удалось подключиться к языковой модели.".toList

/-- Terminal fragment `"Ошибка соединения с моделью."`. -/
def statusMsg : List Char := "Ошибка соединения с моделью.".toList

/-- Terminal fragment `"Превышено время ожидания ответа."`. -/
def timeoutMsg : List Char := "Превышено время ожидания ответа.".toList

/-- Terminal fragment `"Произошла ошибка при генерации ответа."`. -/
def otherErrMsg : List Char := "Произошла ошибка при генерации ответа.".toList

/-- The user-facing failure message that `_stream_from_ollama` yields for a
given failing attempt outcome. -/
def failMsg : AttemptOutcome → List Char
  | .ok _ => []
  | .badStatus => statusMsg
  | .timeout => timeoutMsg
  | .connError => connectMsg
  | .otherError => otherErrMsg

/-- The body-reading loop of `_stream_from_ollama`: skip undecodable lines,
stop at the first `done` frame, yield each non-empty `response` field. -/
def parseLines : List OllamaLine → List (List Char)
  | [] => []
  | .malformed :: rest => parseLines rest
  | .frame resp done :: rest =>
    if done then []
    else match resp with
      | some r => if r.isEmpty then parseLines rest else r :: parseLines rest
      | none => parseLines rest

/-- The `for attempt in range(max_retries + 1)` loop of
`_stream_from_ollama`; `remaining` counts the retries still allowed
(`max_retries - attempt`).  Returns the yielded fragments and the number of
network attempts made.  Non-success status, timeout and unexpected errors
retry while retries remain; a connection error returns at once. -/
def ollamaLoop (f : ℕ → AttemptOutcome) (attempt : ℕ) : ℕ → List (List Char) × ℕ
  | 0 =>
    match f attempt with
    | .ok lines => (parseLines lines, attempt + 1)
    | o => ([failMsg o], attempt + 1)
  | r + 1 =>
    match f attempt with
    | .ok lines => (parseLines lines, attempt + 1)
    | .connError => ([connectMsg], attempt + 1)
    | _ => ollamaLoop f (attempt + 1) r

/-- `LLMAdapter._stream_from_ollama` with `max_retries = 2`: the attempt
outcomes are supplied by the environment `f`. -/
def stream_from_ollama (f : ℕ → AttemptOutcome) : List (List Char) × ℕ :=
  ollamaLoop f 0 2

/-- Keyword alternatives of `LLMAdapter._code_patterns`
(`\b(sql|select|...)\b`). -/
def llmCodeWords : List (List Char) :=
  ["sql", "select", "insert", "update", "delete", "drop", "create table",
   "execute", "eval", "exec"].map (·.toList)

/-- Plain-substring alternatives of `LLMAdapter._code_patterns`. -/
def llmCodePhrases : List (List Char) :=
  ["написать код", "сгенерируй sql"].map (·.toList)

/-- `LLMAdapter._is_code_request`. -/
def is_code_request (s : List Char) : Bool :=
  if s.isEmpty then false
  else
    let t := s.map toLowerRu
    llmCodeWords.any (fun w => hasWordBounded t w) ||
    llmCodePhrases.any (fun w => containsSub t w)

/-- The filler phrases stripped by `LLMAdapter._simplify_response`. -/
def simplifyPhrases : List (List Char) :=
  ["Конечно,", "Рад помочь!", "Вот ответ на ваш вопрос:",
   "Согласно предоставленной информации,"].map (·.toList)

/-- `LLMAdapter._simplify_response`. -/
def simplify_response (t : List Char) : List Char :=
  stripChars (simplifyPhrases.foldl (fun acc p => replaceAll p acc) t)

/-- Template selected by `LLMAdapter._create_prompt`. -/
inductive PromptKind
  | invest
  | deepthink
  | simple
  | plain
deriving DecidableEq

/-- The deterministic content of a built prompt: which template was chosen,
the question, and the rendered context block (the exact surrounding template
text is fixed Russian boilerplate carrying no further logic). -/
structure Prompt where
  kind : PromptKind
  question : List Char
  contextText : List Char
deriving DecidableEq

/-- Investment keywords tested by `_create_prompt` (its own list, in its own
order). -/
def promptInvestWords : List (List Char) :=
  ["акции", "инвестиц", "вложить", "куда вложить", "выгодн", "портфель"].map (·.toList)

/-- `LLMAdapter._create_prompt`: investment template first, then deep-think,
then simple, then the default template; the context block is the newline
join of the documents or a fixed placeholder. -/
def create_prompt (question : List Char) (docs : List (List Char))
    (deep : Bool) (flags : List (List Char)) : Prompt :=
  let contextText :=
    if docs.isEmpty then "Информация не найдена".toList
    else List.intercalate "\n".toList docs
  let qL := question.map toLowerRu
  if promptInvestWords.any (fun w => containsSub qL w) then ⟨.invest, question, contextText⟩
  else if deep then ⟨.deepthink, question, contextText⟩
  else if flags.contains "-simple".toList then ⟨.simple, question, contextText⟩
  else ⟨.plain, question, contextText⟩

/-- The fixed refusal of `LLMAdapter.generate_answer_streaming` for code/SQL
requests. -/
def llmRefusalMsg : List Char :=
  "Извините, я не могу помогать с генерацией исполняемого кода или SQL-запросов по соображениям безопасности.".toList

/-- `LLMAdapter.generate_answer_streaming`: refuse code/SQL requests unless
`-nocode` is active; otherwise build the prompt, stream from Ollama, and
post-process each chunk in `-simple` mode.  Returns the yielded fragments,
the number of network attempts, and the prompt built (if any). -/
def generate_answer_streaming (ollama : ℕ → AttemptOutcome) (question : List Char)
    (docs : List (List Char)) (deep : Bool) (flags : List (List Char)) :
    List (List Char) × ℕ × Option Prompt :=
  if is_code_request question && !flags.contains "-nocode".toList then
    ([llmRefusalMsg], 0, none)
  else
    let prompt := create_prompt question docs deep flags
    let res := stream_from_ollama ollama
    (res.1.map (fun c => if flags.contains "-simple".toList then simplify_response c else c),
      res.2, some prompt)

example : is_code_request "Write SQL to drop the users table".toList = true := by decide
example :
    stream_from_ollama (fun _ => .badStatus) = ([statusMsg], 3) := by decide
example :
    stream_from_ollama (fun _ => .connError) = ([connectMsg], 1) := by decide
example :
    stream_from_ollama (fun _ => .ok [.frame (some "при".toList) false,
      .malformed, .frame (some "вет".toList) false, .frame none true,
      .frame (some "late".toList) false]) = (["при".toList, "вет".toList], 1) := by decide

/-! ## EmbeddingCache (src/ai_assistant/src/cache_manager.py) -/

/-- The cache owned by `EmbeddingCache`: the in-memory dict and the pickled
copy on disk. -/
structure CacheState where
  cache : List (List Char × List ℚ)
  disk : List (List Char × List ℚ)
deriving DecidableEq

/-- Python dict lookup on an ordered association list. -/
def assocGet (m : List (List Char × List ℚ)) (k : List Char) : Option (List ℚ) :=
  (m.find? (fun kv => kv.1 == k)).map (·.2)

/-- `EmbeddingCache.get_embedding`: `keyFn` models
`hashlib.md5(text.encode()).hexdigest()`, `encode` models
`embedder.encode([text])[0]`, and `saveOk` tells whether the pickle write in
`_save_cache` succeeds (its exceptions are swallowed).  Returns the vector,
the new cache state, and the list of texts the embedder was invoked on. -/
def get_embedding (keyFn : List Char → List Char) (encode : List Char → List ℚ)
    (saveOk : Bool) (st : CacheState) (text : List Char) :
    List ℚ × CacheState × List (List Char) :=
  let key := keyFn text
  match assocGet st.cache key with
  | some v => (v, st, [])
  | none =>
    let emb := encode text
    let cache' := st.cache ++ [(key, emb)]
    (emb, ⟨cache', if saveOk then cache' else st.disk⟩, [text])

/-! ## Retriever (src/AI_Assistant_Demo3.py, `find_similar_docs`) -/

/-- `np.dot` of two vectors. -/
def dotQ (a b : List ℚ) : ℚ := (List.zipWith (· * ·) a b).sum

/-- `np.dot(doc_embeddings, question_embedding)`: one similarity per
document. -/
def sims (docEmbs : List (List ℚ)) (q : List ℚ) : List ℚ :=
  docEmbs.map (fun d => dotQ d q)

/-- The ascending comparison used to model `np.argsort` deterministically:
by similarity, ties by index. -/
def argRel (xs : List ℚ) (i j : ℕ) : Prop :=
  xs.getD i 0 < xs.getD j 0 ∨ (xs.getD i 0 = xs.getD j 0 ∧ i ≤ j)

instance (xs : List ℚ) : DecidableRel (argRel xs) := fun i j => by
  unfold argRel; infer_instance

/-- `np.argsort(similarities)`: the indices sorted by ascending similarity
(ties by ascending index). -/
def argsortAsc (xs : List ℚ) : List ℕ :=
  (List.range xs.length).insertionSort (argRel xs)

/-- Python `l[-k:]` (for `k = 0` the whole list, as in Python). -/
def pyTail (l : List ℕ) (k : ℕ) : List ℕ :=
  if k = 0 then l else l.drop (l.length - k)

/-- `np.argsort(similarities)[-top_k:][::-1]`. -/
def topIndices (xs : List ℚ) (k : ℕ) : List ℕ :=
  (pyTail (argsortAsc xs) k).reverse

/-- `SmartDeepThinkRAG.find_similar_docs` (Demo3): the documents at the
top-k indices. -/
def find_similar_docs (documents : List (List Char)) (docEmbs : List (List ℚ))
    (q : List ℚ) (k : ℕ) : List (List Char) :=
  (topIndices (sims docEmbs q) k).map (fun i => documents.getD i [])

example : topIndices [(1 : ℚ), 1] 2 = [1, 0] := by decide
example : topIndices [(1 : ℚ), 3, 2] 2 = [1, 2] := by decide

/-! ## DialogueMemory (src/ai_assistant/src/dialogue_memory.py) -/

/-- `DialogueMemory.add_message` (timestamps are not modelled): append the
turn, then evict the oldest turn if the bounded capacity is exceeded. -/
def add_message (maxMessages : ℕ) (msgs : List (List Char × List Char))
    (role content : List Char) : List (List Char × List Char) :=
  let m := msgs ++ [(role, content)]
  if maxMessages < m.length then m.drop 1 else m

/-! ## SmartDeepThinkRAG.ask_streaming (src/ai_assistant/src/ai_assistant.py) -/

/-- The investment-analysis dict produced by `StockAnalyzer` (an external
collaborator): whether it carries an `error` key, the fragments its
rendering yields in the financial-analysis block, and the fragments the
relevance fallback block yields for its stocks. -/
structure Invest where
  isError : Bool
  blockFrags : List (List Char)
  fallbackFrags : List (List Char)

/-- The environment of one `ask_streaming` run: the loaded security rules,
the outcome of the embedding + similarity lookup (`Except` carries the
exception text on failure), the investment analysis were it requested, the
Ollama attempt outcomes, the rendered deep-think analysis text, and the
rendered elapsed time. -/
structure AskEnv where
  rules : SecRules
  retrieval : Except (List Char) (List (List Char))
  invest : Invest
  ollama : ℕ → AttemptOutcome
  deepAnalysisText : List Char
  elapsedStr : List Char

/-- Result of an `ask_streaming` run: the fragments yielded in order, the
number of generation-backend network attempts, and the dialogue memory after
the run. -/
structure AskResult where
  frags : List (List Char)
  llmAttempts : ℕ
  memory : List (List Char × List Char)
deriving DecidableEq

/-- Investment keywords tested by `ask_streaming` (its own list, in its own
order). -/
def askInvestWords : List (List Char) :=
  ["акции", "инвестиц", "вложить", "куда вложить", "портфель", "выгодн"].map (·.toList)

/-- Question keywords of `_is_relevant_chunk`. -/
def chunkInvestWords : List (List Char) :=
  ["акции", "инвестиц", "вложить"].map (·.toList)

/-- Chunk keywords of `_is_relevant_chunk`. -/
def chunkBadWords : List (List Char) :=
  ["ипотек", "кредит на недвижимость", "вклад"].map (·.toList)

/-- Answer keywords of `_is_response_relevant`. -/
def responseKeywords : List (List Char) :=
  ["акци", "сбер", "газпром", "лукойл", "яндекс", "дивидент", "портфель",
   "инвест"].map (·.toList)

/-- `SmartDeepThinkRAG._is_relevant_chunk`. -/
def is_relevant_chunk (chunk question : List Char) : Bool :=
  let qL := question.map toLowerRu
  let cL := chunk.map toLowerRu
  !(chunkInvestWords.any (fun w => containsSub qL w) &&
    chunkBadWords.any (fun w => containsSub cL w))

/-- `SmartDeepThinkRAG._is_response_relevant`. -/
def is_response_relevant (resp question : List Char) : Bool :=
  let qL := question.map toLowerRu
  let rL := resp.map toLowerRu
  let kws :=
    if (["акции", "инвестиц"].map (·.toList)).any (fun w => containsSub qL w) then
      responseKeywords
    else []
  kws.any (fun w => containsSub rL w)

/-- Fragment `"АКТИВИРОВАН РЕЖИМ DEEPTHINK\n"`. -/
def dtHeader1 : List Char := "АКТИВИРОВАН РЕЖИМ DEEPTHINK\n".toList

/-- Fragment `"=" * 50 + "\n"`. -/
def dtHeader2 : List Char := List.replicate 50 '=' ++ "\n".toList

/-- Fragment `f"АНАЛИЗ БЕЗОПАСНОСТИ: {reason}\n"`. -/
def dtSafetyFrag (reason : List Char) : List Char :=
  "АНАЛИЗ БЕЗОПАСНОСТИ: ".toList ++ reason ++ "\n".toList

/-- Fragment `"Запрос отклонен по политике безопасности\n"`. -/
def dtRejectedFrag : List Char := "Запрос отклонен по политике безопасности\n".toList

/-- Fragment `"\nФИНАНСОВЫЙ АНАЛИЗ:\n"`. -/
def finHeader : List Char := "\nФИНАНСОВЫЙ АНАЛИЗ:\n".toList

/-- Fragment `"\n\nНа основе анализа рекомендую:\n"`. -/
def fallbackHeader : List Char := "\n\nНа основе анализа рекомендую:\n".toList

/-- Fragment `f"\n\n⏱Время ответа: {response_time:.2f} сек"`. -/
def timeFrag (elapsed : List Char) : List Char :=
  "\n\n⏱Время ответа: ".toList ++ elapsed ++ " сек".toList

/-- Fragment `f"Произошла ошибка: {e}"` of the top-level exception handler. -/
def errorFrag (e : List Char) : List Char := "Произошла ошибка: ".toList ++ e

/-- `question.endswith(" -deepthink") and '-nodeep' not in flags`
(ai_assistant.py line 113). -/
def deepthinkMode (question : List Char) : Bool :=
  " -deepthink".toList.isSuffixOf question &&
    !(extract_flags question).2.contains "-nodeep".toList

/-- The cleaned question used by every downstream step: the flag-stripped
text, with `clean_question[:-10].strip()` applied in deep-think mode. -/
def cleanQuestion (question : List Char) : List Char :=
  if deepthinkMode question then stripChars (pyDropLast (extract_flags question).1 10)
  else (extract_flags question).1

/-- `SmartDeepThinkRAG.ask_streaming`.  Flags are extracted once; deep-think
mode needs the raw question to end in `" -deepthink"` with `-nodeep` absent;
the safety check runs on the raw question; rejection yields the refusal
fragments and stops; a retrieval failure is caught by the top-level handler
and yields one error fragment; otherwise the investment analysis is
consulted when investment keywords occur, the LLM chunks are forwarded
through the relevance filter, an irrelevant overall answer triggers the
analysis fallback block, both turns are stored in dialogue memory, and the
timing fragment is yielded last. -/
def ask_streaming (env : AskEnv) (mem0 : List (List Char × List Char))
    (question : List Char) : AskResult :=
  let flags := (extract_flags question).2
  let deepthink := deepthinkMode question
  let cleanQ := cleanQuestion question
  let pre := if deepthink then [dtHeader1, dtHeader2] else []
  let chk := check env.rules question
  if !chk.1 then
    { frags := pre ++ (if deepthink then
        [dtSafetyFrag chk.2, dtRejectedFrag, dtHeader2] else [chk.2]),
      llmAttempts := 0, memory := mem0 }
  else
    match env.retrieval with
    | .error e =>
      { frags := pre ++ [errorFrag e], llmAttempts := 0, memory := mem0 }
    | .ok docs =>
      let qL := cleanQ.map toLowerRu
      let investment :=
        if askInvestWords.any (fun w => containsSub qL w) then some env.invest else none
      let deepFrags := if deepthink then [env.deepAnalysisText] else []
      let investFrags :=
        match investment with
        | some inv => if inv.isError then [] else finHeader :: inv.blockFrags
        | none => []
      let prefixFrag :=
        if deepthink then "ОСНОВНОЙ ОТВЕТ:\n".toList
        else if flags.contains "-simple".toList then "[ПРОСТОЙ РЕЖИМ] ".toList
        else "Ответ: ".toList
      let gen := generate_answer_streaming env.ollama cleanQ docs deepthink flags
      let chunks := gen.1
      let yielded := chunks.filter (fun c => is_relevant_chunk c cleanQ)
      let fullResponse := chunks.foldl (· ++ ·) []
      let fallback :=
        if !is_response_relevant fullResponse cleanQ && investment.isSome then
          fallbackHeader ::
            (match investment with | some inv => inv.fallbackFrags | none => [])
        else []
      let mem1 := add_message 10 mem0 "user".toList cleanQ
      let mem2 := add_message 10 mem1 "assistant".toList fullResponse
      { frags := pre ++ deepFrags ++ investFrags ++ prefixFrag ::
          (yielded ++ fallback ++ [timeFrag env.elapsedStr]),
        llmAttempts := gen.2.1, memory := mem2 }

/-! ## Helper lemmas about the string primitives -/

theorem isPrefixOf_eq_true_iff :
    ∀ p s : List Char, p.isPrefixOf s = true ↔ ∃ t, s = p ++ t := by
  intro p
  induction p with
  | nil => intro s; simp [List.isPrefixOf]
  | cons a p ih =>
    intro s
    cases s with
    | nil => simp [List.isPrefixOf]
    | cons b s' =>
      simp only [List.isPrefixOf, Bool.and_eq_true, beq_iff_eq, ih, List.cons_append,
        List.cons.injEq]
      constructor
      · rintro ⟨rfl, t, rfl⟩; exact ⟨t, rfl, rfl⟩
      · rintro ⟨t, rfl, rfl⟩; exact ⟨rfl, t, rfl⟩

theorem containsSub_iff :
    ∀ s p : List Char, containsSub s p = true ↔ ∃ u v, s = u ++ p ++ v := by
  intro s
  induction s with
  | nil =>
    intro p
    simp only [containsSub, List.isEmpty_iff]
    constructor
    · rintro rfl; exact ⟨[], [], rfl⟩
    · rintro ⟨u, v, h⟩
      rcases List.append_eq_nil.mp h.symm with ⟨h1, h2⟩
      exact (List.append_eq_nil.mp h1).2
  | cons c rest ih =>
    intro p
    simp only [containsSub, Bool.or_eq_true, isPrefixOf_eq_true_iff, ih]
    constructor
    · rintro (⟨t, ht⟩ | ⟨u, v, hv⟩)
      · exact ⟨[], t, by simpa using ht⟩
      · exact ⟨c :: u, v, by simp [hv]⟩
    · rintro ⟨u, v, huv⟩
      cases u with
      | nil => exact Or.inl ⟨v, by simpa using huv⟩
      | cons x u' =>
        simp only [List.cons_append, List.cons.injEq] at huv
        exact Or.inr ⟨u', v, huv.2⟩

theorem containsSub_append_right (a b : List Char) :
    containsSub (a ++ b) b = true :=
  (containsSub_iff _ _).mpr ⟨a, [], by simp⟩

theorem count_le_of_containsSub {s p : List Char} (h : containsSub s p = true)
    (c : Char) : p.count c ≤ s.count c := by
  rcases (containsSub_iff s p).mp h with ⟨u, v, rfl⟩
  simp only [List.count_append]
  omega

theorem replaceAllF_sublist (p : List Char) :
    ∀ fuel s, replaceAllF p fuel s <+ s := by
  intro fuel
  induction fuel with
  | zero => intro s; cases s <;> simp [replaceAllF]
  | succ n ih =>
    intro s
    cases s with
    | nil => simp [replaceAllF]
    | cons c rest =>
      simp only [replaceAllF]
      by_cases h : (!p.isEmpty && p.isPrefixOf (c :: rest)) = true
      · rw [if_pos h]
        exact ((ih _).trans (List.drop_sublist _ _)).trans (List.sublist_cons_self c rest)
      · rw [if_neg h]
        exact (ih rest).cons₂ c

theorem replaceAll_sublist (p s : List Char) : replaceAll p s <+ s :=
  replaceAllF_sublist p s.length s

theorem stripChars_sublist (s : List Char) : stripChars s <+ s := by
  unfold stripChars
  have h1 : (s.dropWhile Char.isWhitespace) <+ s := List.dropWhile_sublist _
  have h2 : ((s.dropWhile Char.isWhitespace).reverse.dropWhile Char.isWhitespace) <+
      (s.dropWhile Char.isWhitespace).reverse := List.dropWhile_sublist _
  have h3 := h2.reverse
  rw [List.reverse_reverse] at h3
  exact h3.trans h1

theorem containsSub_nil (s : List Char) : containsSub s [] = true := by
  cases s <;> simp [containsSub, List.isPrefixOf, List.isEmpty]

theorem replaceAllF_count (p : List Char) (ch : Char) :
    ∀ fuel s, s.length ≤ fuel → containsSub s p = true →
      (replaceAllF p fuel s).count ch + p.count ch ≤ s.count ch := by
  intro fuel
  induction fuel with
  | zero =>
    intro s hlen hc
    have hs : s = [] := List.eq_nil_of_length_eq_zero (Nat.le_zero.mp hlen)
    subst hs
    rcases (containsSub_iff [] p).mp hc with ⟨u, v, huv⟩
    rcases List.append_eq_nil.mp huv.symm with ⟨h1, _⟩
    rcases List.append_eq_nil.mp h1 with ⟨rfl, rfl⟩
    simp [replaceAllF]
  | succ n ih =>
    intro s hlen hc
    cases s with
    | nil =>
      rcases (containsSub_iff [] p).mp hc with ⟨u, v, huv⟩
      rcases List.append_eq_nil.mp huv.symm with ⟨h1, _⟩
      rcases List.append_eq_nil.mp h1 with ⟨rfl, rfl⟩
      simp [replaceAllF]
    | cons c rest =>
      simp only [replaceAllF]
      by_cases h : (!p.isEmpty && p.isPrefixOf (c :: rest)) = true
      · rw [if_pos h]
        have hpre : p.isPrefixOf (c :: rest) = true := (Bool.and_eq_true_iff.mp h).2
        rcases (isPrefixOf_eq_true_iff p (c :: rest)).mp hpre with ⟨t, ht⟩
        have hne : p ≠ [] := by
          intro hnil
          have h1 := (Bool.and_eq_true_iff.mp h).1
          simp [hnil, List.isEmpty] at h1
        have hdrop : rest.drop (p.length - 1) = t := by
          have h1 : (c :: rest).drop p.length = t := by
            rw [ht]; exact List.drop_left p t
          rcases List.exists_cons_of_ne_nil hne with ⟨d, ds, rfl⟩
          simpa using h1
        rw [hdrop]
        have hsub : (replaceAllF p n t).count ch ≤ t.count ch :=
          (replaceAllF_sublist p n t).count_le ch
        have hcount : (c :: rest).count ch = p.count ch + t.count ch := by
          rw [ht, List.count_append]
        omega
      · rw [if_neg h]
        have hc' : containsSub rest p = true := by
          by_cases hemp : p = []
          · subst hemp; exact containsSub_nil rest
          · have hb : (!p.isEmpty) = true := by
              simp [List.isEmpty_iff, hemp]
            have hpre : p.isPrefixOf (c :: rest) = false := by
              cases hp : p.isPrefixOf (c :: rest)
              · rfl
              · exact absurd (by simp [hb, hp]) h
            have := hc
            simp only [containsSub, Bool.or_eq_true, hpre] at this
            simpa using this
        have hlen' : rest.length ≤ n := by
          simp only [List.length_cons] at hlen
          omega
        have := ih rest hlen' hc'
        simp only [List.count_cons]
        omega

theorem replaceAll_count {p s : List Char} (ch : Char) (hc : containsSub s p = true) :
    (replaceAll p s).count ch + p.count ch ≤ s.count ch :=
  replaceAllF_count p ch s.length s le_rfl hc

theorem extractGo_of_count_zero :
    ∀ (fl : List (List Char)), (∀ f ∈ fl, '-' ∈ f) →
      ∀ t fs, t.count '-' = 0 → (extractGo fl t fs).1 = t := by
  intro fl
  induction fl with
  | nil => intro _ t fs _; rfl
  | cons f rest ih =>
    intro hfl t fs h0
    have hnc : containsSub t f = false := by
      cases hc : containsSub t f
      · rfl
      · have h1 : f.count '-' ≤ t.count '-' := count_le_of_containsSub hc '-'
        have h2 : 0 < f.count '-' := List.count_pos_iff.mpr (hfl f (.head _))
        omega
    simp only [extractGo, hnc, Bool.false_eq_true, if_false]
    exact ih (fun g hg => hfl g (.tail _ hg)) t fs h0

theorem extractGo_kill :
    ∀ (fl : List (List Char)), (∀ f ∈ fl, f.count '-' = 1) →
      ∀ t fs, t.count '-' ≤ 1 → (∃ f ∈ fl, containsSub t f = true) →
        ((extractGo fl t fs).1).count '-' = 0 := by
  intro fl
  induction fl with
  | nil =>
    intro _ t fs _ hex
    rcases hex with ⟨f, hf, _⟩
    exact absurd hf (List.not_mem_nil f)
  | cons f rest ih =>
    intro hfl t fs hle hex
    have hrest : ∀ g ∈ rest, g.count '-' = 1 := fun g hg => hfl g (.tail _ hg)
    by_cases hc : containsSub t f = true
    · simp only [extractGo, hc, if_true]
      have hrepl : (replaceAll f t).count '-' + f.count '-' ≤ t.count '-' :=
        replaceAll_count '-' hc
      have hf1 : f.count '-' = 1 := hfl f (.head _)
      have hstrip : (stripChars (replaceAll f t)).count '-' ≤ (replaceAll f t).count '-' :=
        (stripChars_sublist _).count_le '-'
      have hz : (stripChars (replaceAll f t)).count '-' = 0 := by omega
      have hmem : ∀ g ∈ rest, '-' ∈ g := fun g hg =>
        List.count_pos_iff.mp (by rw [hrest g hg]; omega)
      rw [extractGo_of_count_zero rest hmem _ _ hz]
      exact hz
    · rcases hex with ⟨g, hg, hgc⟩
      cases hg with
      | head => exact absurd hgc hc
      | tail _ hg' =>
        simp only [extractGo, hc, Bool.false_eq_true, if_false]
        exact ih hrest t fs hle ⟨g, hg', hgc⟩

/-! ## Claim theorems -/

/-- Claim C5, counterexample: the input `-no-nocodecode` contains the
recognized flag token `-nocode`, yet the cleaned text produced by
`_extract_flags` is exactly `-nocode` again: deleting the occurrence splices
the surrounding characters into a fresh occurrence of the very token. -/
theorem C5_counterexample :
    containsSub "-no-nocodecode".toList "-nocode".toList = true ∧
    (extract_flags "-no-nocodecode".toList).1 = "-nocode".toList ∧
    containsSub (extract_flags "-no-nocodecode".toList).1 "-nocode".toList = true := by
  decide

/-- Claim C5 (amended): for every input containing exactly one `-`
character, if the input contains a recognized flag token then the cleaned
text produced by `_extract_flags` does not contain that token (with several
`-` characters the single-pass deletions can splice a new occurrence out of
adjacent text, as the counterexample shows). -/
theorem C5_claim (s f : List Char) (hf : f ∈ flagTokens) (h1 : s.count '-' = 1)
    (hc : containsSub s f = true) :
    containsSub (extract_flags s).1 f = false := by
  have hcounts : ∀ g ∈ flagTokens, g.count '-' = 1 := by decide
  have h0 : ((extractGo flagTokens s []).1).count '-' = 0 :=
    extractGo_kill flagTokens hcounts s [] (by omega) ⟨f, hf, hc⟩
  cases hres : containsSub (extract_flags s).1 f
  · rfl
  · have hle : f.count '-' ≤ ((extract_flags s).1).count '-' :=
      count_le_of_containsSub hres '-'
    have hf1 : f.count '-' = 1 := hcounts f hf
    unfold extract_flags at hle
    omega

/-- Claim C5, witness: a well-formed input with one flag occurrence. -/
theorem C5_witness :
    "-simple".toList ∈ flagTokens ∧
    ("что такое вклад -simple".toList).count '-' = 1 ∧
    containsSub "что такое вклад -simple".toList "-simple".toList = true ∧
    containsSub (extract_flags "что такое вклад -simple".toList).1 "-simple".toList = false :=
  ⟨by decide, by decide, by decide,
    C5_claim _ _ (by decide) (by decide) (by decide)⟩

/-- Claim C2, counterexample: when every attempt fails with a connection
failure, `_stream_from_ollama` makes exactly one network attempt — it does
not retry up to the fixed bound of 2 additional attempts. -/
theorem C2_counterexample :
    stream_from_ollama (fun _ => AttemptOutcome.connError) = ([connectMsg], 1) ∧
    (stream_from_ollama (fun _ => AttemptOutcome.connError)).2 ≠ 3 := by
  constructor
  · rfl
  · intro h
    simp [stream_from_ollama, ollamaLoop] at h

/-- Claim C2 (amended): when every attempt fails with a non-success status,
a timeout, or an unexpected error, `_stream_from_ollama` makes exactly
3 network attempts (2 retries after the first attempt) and then yields
exactly one terminal fragment, the user-facing failure message of the last
attempt's failure kind, and ends without raising; a connection failure is
not retried: the stream ends after the first such attempt with the fixed
connection-failure fragment. -/
theorem C2_claim :
    (∀ f : ℕ → AttemptOutcome,
      (∀ i, i ≤ 2 → f i = .badStatus ∨ f i = .timeout ∨ f i = .otherError) →
      stream_from_ollama f = ([failMsg (f 2)], 3)) ∧
    (∀ f : ℕ → AttemptOutcome, f 0 = .connError →
      stream_from_ollama f = ([connectMsg], 1)) := by
  constructor
  · intro f h
    have h0 := h 0 (by omega)
    have h1 := h 1 (by omega)
    have h2 := h 2 (by omega)
    unfold stream_from_ollama
    rcases h0 with h0 | h0 | h0 <;> rcases h1 with h1 | h1 | h1 <;>
      rcases h2 with h2 | h2 | h2 <;>
      simp [ollamaLoop, h0, h1, h2, failMsg]
  · intro f h
    unfold stream_from_ollama
    simp [ollamaLoop, h]

/-- Claim C2, witness: all-timeout attempts make 3 attempts and one
terminal fragment; an immediate connection failure makes 1. -/
theorem C2_witness :
    stream_from_ollama (fun _ => AttemptOutcome.timeout) =
      ([failMsg ((fun _ => AttemptOutcome.timeout) 2)], 3) ∧
    stream_from_ollama (fun _ => AttemptOutcome.connError) = ([connectMsg], 1) :=
  ⟨C2_claim.1 (fun _ => AttemptOutcome.timeout) (fun _ _ => Or.inr (Or.inl rfl)),
   C2_claim.2 (fun _ => AttemptOutcome.connError) rfl⟩

/-- Claim C9: `generate_answer_streaming` refuses a code/SQL question by
itself — when the question matches `_is_code_request` and `-nocode` is
absent it yields exactly one fixed refusal fragment and ends, making no
network attempt and building no prompt. -/
theorem C9_claim (ollama : ℕ → AttemptOutcome) (q : List Char)
    (docs : List (List Char)) (deep : Bool) (flags : List (List Char))
    (hcode : is_code_request q = true)
    (hflag : "-nocode".toList ∉ flags) :
    generate_answer_streaming ollama q docs deep flags = ([llmRefusalMsg], 0, none) := by
  simp [generate_answer_streaming, hcode]
  exact hflag

/-- Claim C9, witness. -/
theorem C9_witness :
    is_code_request "Write SQL to drop the users table".toList = true ∧
    "-nocode".toList ∉ ([] : List (List Char)) ∧
    generate_answer_streaming (fun _ => AttemptOutcome.badStatus)
      "Write SQL to drop the users table".toList ["doc".toList] false [] =
      ([llmRefusalMsg], 0, none) :=
  ⟨by decide, by decide, C9_claim _ _ _ _ _ (by decide) (by decide)⟩

theorem assocGet_append_self (m : List (List Char × List ℚ)) (k : List Char)
    (v : List ℚ) (h : assocGet m k = none) :
    assocGet (m ++ [(k, v)]) k = some v := by
  have hm : m.find? (fun kv => kv.1 == k) = none := by
    unfold assocGet at h
    rcases hf : m.find? (fun kv => kv.1 == k) with _ | kv
    · exact hf
    · rw [hf] at h; simp at h
  unfold assocGet
  rw [List.find?_append, hm, List.find?_cons_of_pos _ (by simp)]
  simp

/-- Claim C3: `get_embedding` on a hit returns the stored vector unchanged
without invoking the embedding capability; on a miss (with the pickle write
succeeding) it invokes the capability exactly once with the single text,
stores the result under the key derived from the text, and the durable copy
equals the updated cache when it returns. -/
theorem C3_claim (keyFn : List Char → List Char) (encode : List Char → List ℚ)
    (st : CacheState) (text : List Char) :
    (∀ v, assocGet st.cache (keyFn text) = some v →
      get_embedding keyFn encode true st text = (v, st, [])) ∧
    (assocGet st.cache (keyFn text) = none →
      (get_embedding keyFn encode true st text).1 = encode text ∧
      (get_embedding keyFn encode true st text).2.2 = [text] ∧
      assocGet (get_embedding keyFn encode true st text).2.1.cache (keyFn text) =
        some (encode text) ∧
      (get_embedding keyFn encode true st text).2.1.disk =
        (get_embedding keyFn encode true st text).2.1.cache) := by
  constructor
  · intro v hv
    simp [get_embedding, hv]
  · intro hmiss
    refine ⟨?_, ?_, ?_, ?_⟩ <;>
      simp [get_embedding, hmiss, assocGet_append_self st.cache (keyFn text) (encode text) hmiss]

/-- Claim C3, witness: one concrete hit and one concrete miss. -/
theorem C3_witness :
    assocGet [("k1".toList, [(2 : ℚ)])] "k1".toList = some [(2 : ℚ)] ∧
    get_embedding (fun _ => "k1".toList) (fun _ => [(3 : ℚ)]) true
      ⟨[("k1".toList, [(2 : ℚ)])], [("k1".toList, [(2 : ℚ)])]⟩ "кредит".toList =
      ([(2 : ℚ)], ⟨[("k1".toList, [(2 : ℚ)])], [("k1".toList, [(2 : ℚ)])]⟩, []) ∧
    (get_embedding (fun t => t) (fun _ => [(3 : ℚ)]) true ⟨[], []⟩ "вклад".toList).2.2 =
      ["вклад".toList] :=
  ⟨by decide,
   (C3_claim (fun _ => "k1".toList) (fun _ => [(3 : ℚ)])
     ⟨[("k1".toList, [(2 : ℚ)])], [("k1".toList, [(2 : ℚ)])]⟩ "кредит".toList).1
     [(2 : ℚ)] (by decide),
   ((C3_claim (fun t => t) (fun _ => [(3 : ℚ)]) ⟨[], []⟩ "вклад".toList).2
     (by decide)).2.1⟩

/-- Claim C10: when the pickle write fails on a miss, `get_embedding` still
returns the freshly computed vector, leaves the durable copy unchanged, and
keeps the new entry in the in-memory cache, so a second call for the same
text in the same process is a pure hit with no further embedding call. -/
theorem C10_claim (keyFn : List Char → List Char) (encode : List Char → List ℚ)
    (st : CacheState) (text : List Char)
    (hmiss : assocGet st.cache (keyFn text) = none) :
    (get_embedding keyFn encode false st text).1 = encode text ∧
    (get_embedding keyFn encode false st text).2.1.disk = st.disk ∧
    get_embedding keyFn encode false (get_embedding keyFn encode false st text).2.1 text =
      (encode text, (get_embedding keyFn encode false st text).2.1, []) := by
  refine ⟨?_, ?_, ?_⟩ <;>
    simp [get_embedding, hmiss, assocGet_append_self st.cache (keyFn text) (encode text) hmiss]

/-- Claim C10, witness. -/
theorem C10_witness :
    assocGet [] ("вклад".toList) = none ∧
    (get_embedding (fun t => t) (fun _ => [(5 : ℚ)]) false ⟨[], []⟩ "вклад".toList).1 =
      [(5 : ℚ)] ∧
    (get_embedding (fun t => t) (fun _ => [(5 : ℚ)]) false ⟨[], []⟩ "вклад".toList).2.1.disk =
      [] :=
  ⟨by decide,
   (C10_claim (fun t => t) (fun _ => [(5 : ℚ)]) ⟨[], []⟩ "вклад".toList (by decide)).1,
   (C10_claim (fun t => t) (fun _ => [(5 : ℚ)]) ⟨[], []⟩ "вклад".toList (by decide)).2.1⟩

instance argRelIsTotal (xs : List ℚ) : IsTotal ℕ (argRel xs) where
  total i j := by
    unfold argRel
    rcases lt_trichotomy (xs.getD i 0) (xs.getD j 0) with h | h | h
    · exact Or.inl (Or.inl h)
    · rcases Nat.le_total i j with hij | hij
      · exact Or.inl (Or.inr ⟨h, hij⟩)
      · exact Or.inr (Or.inr ⟨h.symm, hij⟩)
    · exact Or.inr (Or.inl h)

instance argRelIsTrans (xs : List ℚ) : IsTrans ℕ (argRel xs) where
  trans a b c hab hbc := by
    unfold argRel at *
    rcases hab with h1 | ⟨e1, l1⟩ <;> rcases hbc with h2 | ⟨e2, l2⟩
    · exact Or.inl (h1.trans h2)
    · exact Or.inl (by rw [← e2]; exact h1)
    · exact Or.inl (by rw [e1]; exact h2)
    · exact Or.inr ⟨e1.trans e2, l1.trans l2⟩

theorem topIndices_spec (xs : List ℚ) (k : ℕ) :
    (topIndices xs k).Nodup ∧
    (topIndices xs k).Pairwise (fun i j =>
      xs.getD j 0 < xs.getD i 0 ∨ (xs.getD j 0 = xs.getD i 0 ∧ j < i)) := by
  have hsorted : (argsortAsc xs).Pairwise (argRel xs) :=
    List.sorted_insertionSort (argRel xs) (List.range xs.length)
  have hperm : argsortAsc xs ~ List.range xs.length :=
    List.perm_insertionSort (argRel xs) (List.range xs.length)
  have hnodupA : (argsortAsc xs).Nodup := hperm.symm.nodup (List.nodup_range xs.length)
  have hsubl : pyTail (argsortAsc xs) k <+ argsortAsc xs := by
    unfold pyTail
    split
    · exact List.Sublist.refl _
    · exact List.drop_sublist _ _
  have hsorted' : (pyTail (argsortAsc xs) k).Pairwise (argRel xs) :=
    List.Pairwise.sublist hsubl hsorted
  have hnodup' : (pyTail (argsortAsc xs) k).Nodup := hsubl.nodup hnodupA
  unfold topIndices
  refine ⟨List.nodup_reverse.mpr hnodup', ?_⟩
  rw [List.pairwise_reverse]
  refine (hsorted'.and hnodup').imp ?_
  rintro a b ⟨hr, hne⟩
  rcases hr with h | ⟨heq, hle⟩
  · exact Or.inl h
  · exact Or.inr ⟨heq, Nat.lt_of_le_of_ne hle hne⟩

/-- Claim C4, counterexample: two documents with equal similarity are
returned with the larger corpus index first, not the smaller — the
ascending argsort is reversed, which reverses the tie order. -/
theorem C4_counterexample :
    find_similar_docs ["a".toList, "b".toList] [[(1 : ℚ)], [(1 : ℚ)]] [(1 : ℚ)] 2 =
      ["b".toList, "a".toList] ∧
    topIndices (sims [[(1 : ℚ)], [(1 : ℚ)]] [(1 : ℚ)]) 2 = [1, 0] ∧
    ¬ (topIndices (sims [[(1 : ℚ)], [(1 : ℚ)]] [(1 : ℚ)]) 2).Pairwise (fun i j =>
        (sims [[(1 : ℚ)], [(1 : ℚ)]] [(1 : ℚ)]).getD i 0 =
          (sims [[(1 : ℚ)], [(1 : ℚ)]] [(1 : ℚ)]).getD j 0 → i ≤ j) := by
  have hs : sims [[(1 : ℚ)], [(1 : ℚ)]] [(1 : ℚ)] = [1, 1] := by
    norm_num [sims, dotQ]
  refine ⟨?_, ?_, ?_⟩
  · unfold find_similar_docs
    rw [hs]
    decide
  · rw [hs]; decide
  · rw [hs]; decide

/-- Claim C4 (amended): for every corpus and query, the top-k result of
`find_similar_docs` visits pairwise-distinct corpus indices sorted by
non-increasing similarity, but documents of equal similarity are ordered by
descending corpus index (the ascending argsort is reversed), not
ascending. -/
theorem C4_claim (docEmbs : List (List ℚ)) (q : List ℚ) (k : ℕ) :
    (topIndices (sims docEmbs q) k).Nodup ∧
    (topIndices (sims docEmbs q) k).Pairwise (fun i j =>
      (sims docEmbs q).getD j 0 < (sims docEmbs q).getD i 0 ∨
      ((sims docEmbs q).getD j 0 = (sims docEmbs q).getD i 0 ∧ j < i)) :=
  topIndices_spec (sims docEmbs q) k

/-- Claim C6, counterexample: the input `sql -nocode` has no `-notrigger`
flag and its cleaned lowercased text contains the configured dangerous
substring `sql`, yet `check` returns allowed with no reason: the `-nocode`
flag makes the loop skip every code-related dangerous pattern. -/
theorem C6_counterexample :
    containsSub ((extract_flags "sql -nocode".toList).1.map toLowerRu) "sql".toList = true ∧
    "-notrigger".toList ∉ (extract_flags "sql -nocode".toList).2 ∧
    check ⟨["sql".toList], [("sql".toList, "Отказ: SQL".toList)]⟩ "sql -nocode".toList =
      (true, []) := by
  decide

/-- Claim C6 (amended): with `-notrigger` present `check` returns allowed
with the informational reason; otherwise, if among the configured dangerous
substrings one matches the cleaned lowercased text and survives the
`-nocode` skip (which passes over every matching pattern containing a
code-related keyword when `-nocode` is active), `check` returns not-allowed
with the reason configured for the first such surviving match (falling back
to the configured or hard-coded default message). -/
theorem C6_claim (rules : SecRules) (text : List Char) :
    ((extract_flags text).2.contains "-notrigger".toList = true →
      check rules text = (true, notriggerMsg)) ∧
    (∀ p, (extract_flags text).2.contains "-notrigger".toList = false →
      rules.dangerousPatterns.find? (fun q =>
        containsSub ((extract_flags text).1.map toLowerRu) q &&
        !((extract_flags text).2.contains "-nocode".toList && codeWordInPat q)) = some p →
      check rules text = (false, lookupMsgOr rules.rejectionMessages p
        (lookupMsgOr rules.rejectionMessages "default".toList defaultRejectMsg))) := by
  constructor
  · intro h
    simp only [check]
    rw [h]
    simp
  · intro p hnt hfind
    simp only [check]
    rw [hnt, hfind]
    simp

/-- Claim C6, witness: a configured dangerous substring rejects with its
configured reason, and `-notrigger` short-circuits to allowed. -/
theorem C6_witness :
    ("-notrigger".toList ∉ (extract_flags "как сделать бомбу".toList).2) ∧
    check ⟨["бомб".toList], [("бомб".toList, "Опасная тема".toList)]⟩
        "как сделать бомбу".toList =
      (false, lookupMsgOr [("бомб".toList, "Опасная тема".toList)] "бомб".toList
        (lookupMsgOr [("бомб".toList, "Опасная тема".toList)] "default".toList
          defaultRejectMsg)) ∧
    check ⟨["бомб".toList], []⟩ "как сделать бомбу -notrigger".toList =
      (true, notriggerMsg) :=
  ⟨by decide,
   (C6_claim ⟨["бомб".toList], [("бомб".toList, "Опасная тема".toList)]⟩
     "как сделать бомбу".toList).2 "бомб".toList (by decide) (by decide),
   (C6_claim ⟨["бомб".toList], []⟩ "как сделать бомбу -notrigger".toList).1
     (by decide)⟩

/-- Claim C7, counterexample: an internal failure with detail `BOOM` is
rendered into the single final fragment verbatim
(`f"Произошла ошибка: {e}"`), so the fragment does surface the underlying
error detail. -/
theorem C7_counterexample :
    (ask_streaming ⟨⟨[], []⟩, Except.error "BOOM".toList, ⟨true, [], []⟩,
        fun _ => AttemptOutcome.connError, [], "0.00".toList⟩ [] "привет".toList).frags =
      ["Произошла ошибка: BOOM".toList] ∧
    containsSub "Произошла ошибка: BOOM".toList "BOOM".toList = true := by
  exact ⟨by decide, by decide⟩

/-- Claim C7 (amended): no exception escapes `ask_streaming` — when the
safety check passes and the retrieval step fails with exception text `e`,
the stream terminates with exactly one final fragment after the deep-think
preamble, no generation-backend attempt is made and the memory is left
unchanged; that final fragment, however, is `Произошла ошибка: e` and
embeds the underlying error detail verbatim rather than being generic. -/
theorem C7_claim (env : AskEnv) (mem0 : List (List Char × List Char))
    (q e : List Char) (hsafe : (check env.rules q).1 = true)
    (herr : env.retrieval = Except.error e) :
    (ask_streaming env mem0 q).frags =
      (if deepthinkMode q then [dtHeader1, dtHeader2] else []) ++ [errorFrag e] ∧
    containsSub (errorFrag e) e = true ∧
    (ask_streaming env mem0 q).llmAttempts = 0 ∧
    (ask_streaming env mem0 q).memory = mem0 := by
  refine ⟨?_, containsSub_append_right _ e, ?_, ?_⟩ <;> simp [ask_streaming, hsafe, herr]

/-- Claim C7, witness. -/
theorem C7_witness :
    (check (⟨[], []⟩ : SecRules) "тест".toList).1 = true ∧
    ((ask_streaming ⟨⟨[], []⟩, Except.error "X".toList, ⟨true, [], []⟩,
        fun _ => AttemptOutcome.connError, [], "1".toList⟩ [] "тест".toList).frags =
      (if deepthinkMode "тест".toList then [dtHeader1, dtHeader2] else []) ++
        [errorFrag "X".toList] ∧
     containsSub (errorFrag "X".toList) "X".toList = true ∧
     (ask_streaming ⟨⟨[], []⟩, Except.error "X".toList, ⟨true, [], []⟩,
        fun _ => AttemptOutcome.connError, [], "1".toList⟩ [] "тест".toList).llmAttempts = 0 ∧
     (ask_streaming ⟨⟨[], []⟩, Except.error "X".toList, ⟨true, [], []⟩,
        fun _ => AttemptOutcome.connError, [], "1".toList⟩ [] "тест".toList).memory = []) :=
  ⟨by decide, C7_claim _ _ _ _ (by decide) rfl⟩

/-- Claim C1, counterexample: the question `sql -notrigger` has a cleaned
text matching the code/SQL pattern and its flags do not include `-nocode`,
yet the stream is not the single fixed refusal: `-notrigger` disables the
safety check entirely, the pipeline proceeds to generation, and the stream
carries three fragments (the answer prefix, the generation client's own
refusal, and the timing fragment). -/
theorem C1_counterexample :
    codeRegexMatch (extract_flags "sql -notrigger".toList).1 = true ∧
    "-nocode".toList ∉ (extract_flags "sql -notrigger".toList).2 ∧
    (ask_streaming ⟨⟨[], []⟩, Except.ok [], ⟨true, [], []⟩,
        fun _ => AttemptOutcome.connError, [], "0.01".toList⟩ [] "sql -notrigger".toList).frags =
      ["Ответ: ".toList, llmRefusalMsg, timeFrag "0.01".toList] ∧
    ((ask_streaming ⟨⟨[], []⟩, Except.ok [], ⟨true, [], []⟩,
        fun _ => AttemptOutcome.connError, [], "0.01".toList⟩ [] "sql -notrigger".toList).frags).length ≠ 1 := by
  decide

/-- Claim C1 (amended): when the cleaned text matches the compiled code/SQL
pattern, the extracted flags include neither `-nocode` nor `-notrigger`,
the question does not end with the deep-think suffix, and no configured
dangerous substring matches the cleaned lowercased text, the ask stream
yields exactly one fragment — the code refusal message from the rejection
configuration (the fixed hard-coded refusal when none is configured) — and
ends with no generation-backend attempt and no memory write. -/
theorem C1_claim (env : AskEnv) (mem0 : List (List Char × List Char))
    (q : List Char)
    (hcode : codeRegexMatch (extract_flags q).1 = true)
    (hnc : "-nocode".toList ∉ (extract_flags q).2)
    (hnt : "-notrigger".toList ∉ (extract_flags q).2)
    (hdt : " -deepthink".toList.isSuffixOf q = false)
    (hpat : ∀ p ∈ env.rules.dangerousPatterns,
      containsSub ((extract_flags q).1.map toLowerRu) p = false) :
    ask_streaming env mem0 q =
      ⟨[lookupMsgOr env.rules.rejectionMessages "code".toList codeRejectMsg], 0, mem0⟩ := by
  have hfind : env.rules.dangerousPatterns.find? (fun p =>
      containsSub ((extract_flags q).1.map toLowerRu) p &&
      !((extract_flags q).2.contains "-nocode".toList && codeWordInPat p)) = none := by
    rw [List.find?_eq_none]
    intro p hp
    simp [hpat p hp]
  have hnt' : (extract_flags q).2.contains "-notrigger".toList = false := by
    simpa using hnt
  have hnc' : (extract_flags q).2.contains "-nocode".toList = false := by
    simpa using hnc
  have hchk : check env.rules q =
      (false, lookupMsgOr env.rules.rejectionMessages "code".toList codeRejectMsg) := by
    simp only [check]
    rw [hnt', hfind, hcode, hnc']
    simp
  have hdt' : ¬ ([' ', '-', 'd', 'e', 'e', 'p', 't', 'h', 'i', 'n', 'k'] <:+ q) := by
    intro hs
    have h2 : " -deepthink".toList.isSuffixOf q = true :=
      List.isSuffixOf_iff_suffix.mpr hs
    rw [hdt] at h2
    cases h2
  simp [ask_streaming, hchk, deepthinkMode, hdt']

/-- Claim C1, witness: spec scenario B. -/
theorem C1_witness :
    codeRegexMatch (extract_flags "Write SQL to drop the users table".toList).1 = true ∧
    ask_streaming ⟨⟨[], []⟩, Except.ok [], ⟨true, [], []⟩,
        fun _ => AttemptOutcome.connError, [], "0.01".toList⟩ []
        "Write SQL to drop the users table".toList =
      ⟨[lookupMsgOr ([] : List (List Char × List Char)) "code".toList codeRejectMsg],
        0, []⟩ :=
  ⟨by decide,
   C1_claim _ _ _ (by decide) (by decide) (by decide) (by decide)
     (by intro p hp; exact absurd hp (List.not_mem_nil p))⟩

/-- Claim C8, counterexample: the backend produces the fragment `ипотека`
for the investment question `акции`, but the relevance filter drops it and
the caller never receives it — not every backend fragment is delivered. -/
theorem C8_counterexample :
    (generate_answer_streaming
        (fun _ => AttemptOutcome.ok [.frame (some "ипотека".toList) false, .frame none true])
        "акции".toList ["d".toList] false []).1 = ["ипотека".toList] ∧
    "ипотека".toList ∉
      (ask_streaming ⟨⟨[], []⟩, Except.ok ["d".toList], ⟨true, [], []⟩,
        (fun _ => AttemptOutcome.ok [.frame (some "ипотека".toList) false, .frame none true]),
        [], "0.01".toList⟩ [] "акции".toList).frags := by
  exact ⟨by decide, by decide⟩

/-- Claim C8 (amended): for every run that passes the safety check and
retrieves documents, the backend fragments that survive the relevance
filter are delivered as one contiguous block, in the backend's order
(fragments the filter rejects are silently dropped); the timing fragment is
the last fragment of the stream; and the dialogue memory after the run is
the input memory with the question appended and then the concatenation of
all backend fragments (including dropped ones) appended — a state only
constructible after the full stream has ended. -/
theorem C8_claim (env : AskEnv) (mem0 : List (List Char × List Char))
    (q : List Char) (docs : List (List Char))
    (hsafe : (check env.rules q).1 = true)
    (hret : env.retrieval = Except.ok docs) :
    (∃ a, (ask_streaming env mem0 q).frags = a ++ [timeFrag env.elapsedStr]) ∧
    (∃ a b, (ask_streaming env mem0 q).frags =
      a ++ ((generate_answer_streaming env.ollama (cleanQuestion q) docs
          (deepthinkMode q) (extract_flags q).2).1.filter
        (fun c => is_relevant_chunk c (cleanQuestion q))) ++ b) ∧
    (ask_streaming env mem0 q).memory =
      add_message 10 (add_message 10 mem0 "user".toList (cleanQuestion q))
        "assistant".toList
        ((generate_answer_streaming env.ollama (cleanQuestion q) docs
          (deepthinkMode q) (extract_flags q).2).1.foldl (· ++ ·) []) := by
  have key : ∃ u fb,
      (ask_streaming env mem0 q).frags =
        u ++ ((generate_answer_streaming env.ollama (cleanQuestion q) docs
            (deepthinkMode q) (extract_flags q).2).1.filter
          (fun c => is_relevant_chunk c (cleanQuestion q))) ++ fb ++
          [timeFrag env.elapsedStr] := by
    refine ⟨(if deepthinkMode q then [dtHeader1, dtHeader2] else []) ++
      (if deepthinkMode q then [env.deepAnalysisText] else []) ++
      (match (if askInvestWords.any
          (fun w => containsSub ((cleanQuestion q).map toLowerRu) w) then
            some env.invest else none) with
        | some inv => if inv.isError then [] else finHeader :: inv.blockFrags
        | none => []) ++
      [(if deepthinkMode q then "ОСНОВНОЙ ОТВЕТ:\n".toList
        else if (extract_flags q).2.contains "-simple".toList then "[ПРОСТОЙ РЕЖИМ] ".toList
        else "Ответ: ".toList)],
      (if !is_response_relevant ((generate_answer_streaming env.ollama (cleanQuestion q) docs
            (deepthinkMode q) (extract_flags q).2).1.foldl (· ++ ·) []) (cleanQuestion q) &&
          (if askInvestWords.any
            (fun w => containsSub ((cleanQuestion q).map toLowerRu) w) then
              some env.invest else none).isSome then
        fallbackHeader ::
          (match (if askInvestWords.any
              (fun w => containsSub ((cleanQuestion q).map toLowerRu) w) then
            some env.invest else none) with
            | some inv => inv.fallbackFrags
            | none => [])
      else []), ?_⟩
    simp [ask_streaming, hsafe, hret]
  obtain ⟨u, fb, hfr⟩ := key
  refine ⟨⟨u ++ ((generate_answer_streaming env.ollama (cleanQuestion q) docs
      (deepthinkMode q) (extract_flags q).2).1.filter
        (fun c => is_relevant_chunk c (cleanQuestion q))) ++ fb, ?_⟩,
    ⟨u, fb ++ [timeFrag env.elapsedStr], ?_⟩, ?_⟩
  · rw [hfr]
  · rw [hfr]; simp
  · simp [ask_streaming, hsafe, hret]

/-- Claim C8, witness: a plain question whose single backend fragment
passes the filter. -/
theorem C8_witness :
    (check (⟨[], []⟩ : SecRules) "привет".toList).1 = true ∧
    ((∃ a, (ask_streaming ⟨⟨[], []⟩, Except.ok ["д".toList], ⟨true, [], []⟩,
        (fun _ => AttemptOutcome.ok [.frame (some "зд".toList) false, .frame none true]),
        [], "2".toList⟩ [] "привет".toList).frags = a ++ [timeFrag "2".toList]) ∧
     (∃ a b, (ask_streaming ⟨⟨[], []⟩, Except.ok ["д".toList], ⟨true, [], []⟩,
        (fun _ => AttemptOutcome.ok [.frame (some "зд".toList) false, .frame none true]),
        [], "2".toList⟩ [] "привет".toList).frags =
      a ++ ((generate_answer_streaming
          (fun _ => AttemptOutcome.ok [.frame (some "зд".toList) false, .frame none true])
          (cleanQuestion "привет".toList) ["д".toList]
          (deepthinkMode "привет".toList) (extract_flags "привет".toList).2).1.filter
        (fun c => is_relevant_chunk c (cleanQuestion "привет".toList))) ++ b) ∧
     (ask_streaming ⟨⟨[], []⟩, Except.ok ["д".toList], ⟨true, [], []⟩,
        (fun _ => AttemptOutcome.ok [.frame (some "зд".toList) false, .frame none true]),
        [], "2".toList⟩ [] "привет".toList).memory =
      add_message 10 (add_message 10 [] "user".toList (cleanQuestion "привет".toList))
        "assistant".toList
        ((generate_answer_streaming
          (fun _ => AttemptOutcome.ok [.frame (some "зд".toList) false, .frame none true])
          (cleanQuestion "привет".toList) ["д".toList]
          (deepthinkMode "привет".toList) (extract_flags "привет".toList).2).1.foldl
            (· ++ ·) [])) :=
  ⟨by decide, C8_claim _ _ _ _ (by decide) rfl⟩
